import Mathlib

/-!
Verification development for the S3 bucket-policy / Excel-file-processor
lambda (`src/bucket-policy.py`).  The Python source is shallowly embedded:
pure helpers become Lean functions, the boto3/pandas/glue calls of
`lambda_handler` become calls into an explicit `World` of external
collaborators, and every external call attempted is recorded in an
`Effect` trace.  Exceptions raised by the Python code are modelled with
`Except Err` / `Option`.
-/

namespace BucketPolicy

/-! ### String helpers (Python `str.split`, `str.lower`, `str.endswith`) -/

/-- Python's single-character `str.split(sep)` on the character list:
`"".split(sep) == [""]`, separators at the ends produce empty segments. -/
def splitChars (sep : Char) : List Char → List (List Char)
  | [] => [[]]
  | c :: cs =>
    let r := splitChars sep cs
    if c = sep then [] :: r
    else
      match r with
      | [] => [[c]]
      | t :: ts => (c :: t) :: ts

/-- Python `s.split(sep)` for a one-character separator. -/
def pySplit (sep : Char) (s : String) : List String :=
  (splitChars sep s.toList).map List.asString

/-- Python `s.split(sep)[-1]` (the split list is never empty). -/
def lastPart (sep : Char) (s : String) : String :=
  (pySplit sep s).getLastD ""

/-- Python `s.split(sep)[0]`. -/
def firstPart (sep : Char) (s : String) : String :=
  (pySplit sep s).headD ""

/-- Python `s.split(sep)[1]`, `none` modelling the `IndexError` when the
split has fewer than two segments. -/
def secondPart (sep : Char) (s : String) : Option String :=
  (pySplit sep s)[1]?

/-- Python `str.lower`, restricted to ASCII as used for the extension test. -/
def pyLower (s : String) : String :=
  (s.toList.map Char.toLower).asString

/-- Python `str.endswith` for plain strings. -/
def pyEndsWith (s suffix : String) : Bool :=
  suffix.toList.isSuffixOf s.toList

/-! ### CPython `datetime.strptime(s, "%Y%m%d")`

CPython's `_strptime` compiles the format to the regex
`(\d\d\d\d)(1[0-2]|0[1-9]|[1-9])(3[01]|[12]\d|0[1-9]|[1-9]| [1-9])`,
takes the leftmost match (alternatives in the order written, no
backtracking after a later semantic failure), then raises `ValueError`
when unconverted characters remain, and validates the calendar date when
building the `datetime`.  We model the digits as ASCII. -/

/-- Numeric value of an ASCII digit character. -/
def digitVal (c : Char) : Nat := c.toNat - 48

/-- Character-range test `lo ≤ c.toNat ≤ hi` (ASCII regex character class). -/
def inRange (c : Char) (lo hi : Nat) : Bool :=
  lo ≤ c.toNat && c.toNat ≤ hi

/-- All matches of the month regex `1[0-2]|0[1-9]|[1-9]`, in the regex
alternation's priority order, each with the remaining input. -/
def monthAlts : List Char → List (Nat × List Char)
  | [] => []
  | [c] => if inRange c 49 57 then [(digitVal c, [])] else []
  | c₁ :: c₂ :: rest =>
    (if c₁ = '1' && inRange c₂ 48 50 then [(10 + digitVal c₂, rest)] else []) ++
    (if c₁ = '0' && inRange c₂ 49 57 then [(digitVal c₂, rest)] else []) ++
    (if inRange c₁ 49 57 then [(digitVal c₁, c₂ :: rest)] else [])

/-- All matches of the day regex `3[01]|[12]\d|0[1-9]|[1-9]| [1-9]`, in
priority order, each with the remaining input. -/
def dayAlts : List Char → List (Nat × List Char)
  | [] => []
  | [c] => if inRange c 49 57 then [(digitVal c, [])] else []
  | c₁ :: c₂ :: rest =>
    (if c₁ = '3' && inRange c₂ 48 49 then [(30 + digitVal c₂, rest)] else []) ++
    (if inRange c₁ 49 50 && inRange c₂ 48 57 then [(10 * digitVal c₁ + digitVal c₂, rest)] else []) ++
    (if c₁ = '0' && inRange c₂ 49 57 then [(digitVal c₂, rest)] else []) ++
    (if inRange c₁ 49 57 then [(digitVal c₁, c₂ :: rest)] else []) ++
    (if c₁ = ' ' && inRange c₂ 49 57 then [(digitVal c₂, rest)] else [])

/-- Leftmost regex match of month then day: month alternatives are tried
in priority order; for each, the first matching day alternative completes
the match (nothing follows the day in the pattern, so it never backtracks
further). -/
def tryMonths : List (Nat × List Char) → Option (Nat × Nat × List Char)
  | [] => none
  | (m, rest) :: more =>
    match (dayAlts rest).head? with
    | some (d, rest₂) => some (m, d, rest₂)
    | none => tryMonths more

/-- Gregorian leap year, as `datetime` uses. -/
def isLeap (y : Nat) : Bool :=
  y % 4 = 0 && (y % 100 ≠ 0 || y % 400 = 0)

/-- Days in a month, as `datetime` validates them. -/
def daysInMonth (y m : Nat) : Nat :=
  if m = 2 then (if isLeap y then 29 else 28)
  else if m = 4 || m = 6 || m = 9 || m = 11 then 30
  else 31

/-- Calendar validity check performed when `_strptime` builds the date
(`datetime` requires `1 ≤ year`). -/
def validDate (y m d : Nat) : Bool :=
  1 ≤ y && 1 ≤ m && m ≤ 12 && 1 ≤ d && d ≤ daysInMonth y m

/-- The year denoted by the four leading digit characters. -/
def yearVal (c₁ c₂ c₃ c₄ : Char) : Nat :=
  ((digitVal c₁ * 10 + digitVal c₂) * 10 + digitVal c₃) * 10 + digitVal c₄

/-- Model of `datetime.strptime(s, "%Y%m%d")`, returning
`some (year, month, day)` or `none` for a `ValueError`. -/
def strptimeYmd (s : String) : Option (Nat × Nat × Nat) :=
  match s.toList with
  | c₁ :: c₂ :: c₃ :: c₄ :: rest =>
    if c₁.isDigit && c₂.isDigit && c₃.isDigit && c₄.isDigit then
      match tryMonths (monthAlts rest) with
      | some (m, d, []) =>
        if validDate (yearVal c₁ c₂ c₃ c₄) m d then some (yearVal c₁ c₂ c₃ c₄, m, d) else none
      | _ => none
    else none
  | _ => none

/-! ### Partition / destination key derivation (`lambda_handler` lines 136-167) -/

/-- Python `f"{n:02d}"` for the month and day numbers (both below 100 here). -/
def pad2 (n : Nat) : String :=
  if n < 10 then "0" ++ toString n else toString n

/-- The f-string of line 167:
`f"year={year}/month={month:02d}/day={day:02d}/{file_prefix}.csv"`. -/
def mkTargetKey (y m d : Nat) (stem : String) : String :=
  "year=" ++ toString y ++ "/month=" ++ pad2 m ++ "/day=" ++ pad2 d ++ "/" ++ stem ++ ".csv"

/-- Lines 145-146: `date_str = file_name.split('_')[1]` then
`datetime.strptime(date_str, "%Y%m%d")`; `none` models the raised
`IndexError` / `ValueError`. -/
def derivePartition (file_name : String) : Option (Nat × Nat × Nat) :=
  (secondPart '_' file_name).bind strptimeYmd

/-- Destination key derived from the file name: partition fields from the
date token and `file_prefix = file_name.split('.')[0]` (line 137). -/
def deriveTargetKey (file_name : String) : Option String :=
  (derivePartition file_name).map fun p => mkTargetKey p.1 p.2.1 p.2.2 (firstPart '.' file_name)

/-! ### Bucket policy builder (`attach_bucket_policy`, lines 33-86) -/

/-- A JSON value that is either a plain string or a list of strings, as
used for the `Resource` field of the two policy literals. -/
inductive StrOrList where
  | str (s : String)
  | list (l : List String)
deriving DecidableEq

/-- One statement of the bucket policy dictionaries built by
`attach_bucket_policy`; `principalAWS` models `"Principal": {"AWS": ...}`
and `notPrincipalAWS` models `"NotPrincipal": {"AWS": ...}`. -/
structure BPStatement where
  effect : String
  principalAWS : Option (List String)
  notPrincipalAWS : Option (List String)
  action : String
  resource : StrOrList
deriving DecidableEq

/-- The bucket policy document. -/
structure BucketPolicyDoc where
  version : String
  statement : List BPStatement
deriving DecidableEq

/-- The policy document that `attach_bucket_policy` serializes and applies:
the source first binds `bucket_policy` to a one-statement deny document
(lines 45-57) and then rebinds the same variable to the final two-statement
document (lines 58-84), which is the one passed to `put_bucket_policy`. -/
def attach_bucket_policy_policy (bucket_name : String) (account_arns : List String) : BucketPolicyDoc :=
  let bucket_policy : BucketPolicyDoc :=
    { version := "2012-10-17",
      statement := [
        { effect := "Deny",
          principalAWS := none,
          notPrincipalAWS := some account_arns,
          action := "s3:GetObject",
          resource := StrOrList.str ("arn:aws:s3:::" ++ bucket_name ++ "/*") } ] }
  let bucket_policy : BucketPolicyDoc :=
    { version := "2012-10-17",
      statement := [
        { effect := "Allow",
          principalAWS := some account_arns,
          notPrincipalAWS := none,
          action := "s3:*",
          resource := StrOrList.list
            ["arn:aws:s3:::" ++ bucket_name, "arn:aws:s3:::" ++ bucket_name ++ "/*"] },
        { effect := "Deny",
          principalAWS := none,
          notPrincipalAWS := some account_arns,
          action := "s3:GetObject",
          resource := StrOrList.list
            ["arn:aws:s3:::" ++ bucket_name, "arn:aws:s3:::" ++ bucket_name ++ "/*"] } ] }
  bucket_policy

/-! ### Tabular cleaning (`lambda_handler` lines 157-160)

`pd.read_excel(..., header=None)` yields a rectangular grid of cells
(`NaN` for blanks, modelled as `none`).  The code then runs
`dropna(how='all')`, `dropna(axis=1, how='all')`, takes `iloc[0]` as the
header and the remaining rows as data; `iloc[0]` raises `IndexError` when
no rows survive, modelled by `none`. -/

/-- A spreadsheet cell: `none` is `NaN`/blank. -/
abbrev Cell := Option String

/-- The raw grid parsed from the spreadsheet. -/
abbrev RawGrid := List (List Cell)

/-- A row all of whose cells are blank (dropped by `dropna(how='all')`). -/
def isEmptyRow (r : List Cell) : Bool := r.all fun c => c.isNone

/-- `dropna(how='all')`: keep the rows that have at least one value. -/
def dropEmptyRows (g : RawGrid) : RawGrid := g.filter fun r => !(isEmptyRow r)

/-- Column `j` holds a value somewhere in the grid (missing cells read as
`NaN`, as pandas pads short rows). -/
def colHasValue (g : RawGrid) (j : Nat) : Bool := g.any fun r => (r.getD j none).isSome

/-- Indices of the columns kept by `dropna(axis=1, how='all')`, scanning
the row-filtered grid. -/
def keptCols (g : RawGrid) (ncols : Nat) : List Nat :=
  (List.range ncols).filter (colHasValue g)

/-- Restrict a row to the kept column indices. -/
def selectCols (cols : List Nat) (r : List Cell) : List Cell :=
  cols.map fun j => r.getD j none

/-- Width of the (rectangular) grid, read off its first row. -/
def gridWidth (g : RawGrid) : Nat :=
  match g with
  | [] => 0
  | r :: _ => r.length

/-- Lines 158-160: drop all-blank rows, then all-blank columns, then split
off the first surviving row as the header (`headers = excel_df.iloc[0]`;
`excel_df = pd.DataFrame(excel_df.values[1:], columns=headers)`).
`none` models the `IndexError` from `iloc[0]` on an empty frame. -/
def clean (g : RawGrid) : Option (List Cell × RawGrid) :=
  let g₁ := dropEmptyRows g
  let cols := keptCols g₁ (gridWidth g)
  match g₁.map (selectCols cols) with
  | [] => none
  | h :: t => some (h, t)

/-! ### Encryption-key resolution (`get_kms_master_key`, lines 102-126) -/

/-- The `ApplyServerSideEncryptionByDefault` dictionary of one rule. -/
structure SSEByDefault where
  sseAlgorithm : Option String
  kmsMasterKeyID : Option String
deriving DecidableEq

/-- One rule of the bucket encryption configuration. -/
structure EncryptionRule where
  applyByDefault : Option SSEByDefault
deriving DecidableEq

/-- The `get_bucket_encryption` response body:
`serverSideEncryptionConfiguration` is `none` when the response lacks the
`ServerSideEncryptionConfiguration` key, otherwise the `Rules` list. -/
structure EncryptionResponse where
  serverSideEncryptionConfiguration : Option (List EncryptionRule)
deriving DecidableEq

/-- The rule scan of lines 121-125: the first rule carrying a default
whose algorithm is `aws:kms` returns (with `return`) that rule's
`KMSMasterKeyID` — which may itself be absent. -/
def findKmsKey : List EncryptionRule → Option String
  | [] => none
  | r :: rs =>
    match r.applyByDefault with
    | none => findKmsKey rs
    | some d => if d.sseAlgorithm = some "aws:kms" then d.kmsMasterKeyID else findKmsKey rs

/-- `get_kms_master_key` on an already-fetched encryption response:
`None` when no KMS-backed default key is configured. -/
def get_kms_master_key (resp : EncryptionResponse) : Option String :=
  match resp.serverSideEncryptionConfiguration with
  | none => none
  | some rules => findKmsKey rules

/-! ### Principal extraction (`get_aws_account_arns_from_key_metadata`, lines 6-31) -/

/-- The value of a `"AWS"` entry in a statement's `Principal`: a single
string, a list of strings, or some other JSON shape (skipped by the
`isinstance` checks). -/
inductive AwsValue where
  | str (s : String)
  | list (l : List String)
  | other
deriving DecidableEq

/-- A statement's `Principal` dictionary; `AWS` is `none` when the
dictionary has no `"AWS"` key. -/
structure KPPrincipal where
  AWS : Option AwsValue
deriving DecidableEq

/-- One statement of the key policy; `Principal` is `none` when the
statement has no `"Principal"` key. -/
structure KPStatement where
  Principal : Option KPPrincipal
deriving DecidableEq

/-- The parsed key policy document (`json.loads(key_metadata['Policy'])`),
of which only the `Statement` list is read. -/
structure KeyPolicyDoc where
  Statement : List KPStatement
deriving DecidableEq

/-- `account_arns.add(arn)` guarded by the `:root` check: Python set
insertion, modelled as duplicate-free list insertion. -/
def addArn (acc : List String) (arn : String) : List String :=
  if pyEndsWith arn ":root" then acc else acc.insert arn

/-- Processing of a single statement of the key policy. -/
def stmtStep (acc : List String) (st : KPStatement) : List String :=
  match st.Principal with
  | none => acc
  | some pr =>
    match pr.AWS with
    | none => acc
    | some (AwsValue.str s) => addArn acc s
    | some (AwsValue.list l) => l.foldl addArn acc
    | some AwsValue.other => acc

/-- `get_aws_account_arns_from_key_metadata`: accumulate the qualifying
principals of every statement into a set (Python iterates the statements
and returns `list(account_arns)`; the set is modelled as a duplicate-free
list, order irrelevant). -/
def get_aws_account_arns_from_key_metadata (doc : KeyPolicyDoc) : List String :=
  doc.Statement.foldl stmtStep []

/-- An identifier `a` qualifies for extraction from statement `st`: the
statement's `Principal` has an `AWS` entry holding `a` as the single
string or among a list of strings, and `a` does not end in `:root`. -/
def qualifies (st : KPStatement) (a : String) : Prop :=
  pyEndsWith a ":root" = false ∧
    ∃ pr, st.Principal = some pr ∧
      (pr.AWS = some (AwsValue.str a) ∨ ∃ l, pr.AWS = some (AwsValue.list l) ∧ a ∈ l)

/-! ### The handler (`lambda_handler`, lines 128-197) -/

/-- The trigger event's single record: source bucket and object key. -/
structure S3Event where
  sourceBucket : String
  sourceKey : String
deriving DecidableEq

/-- The handler's structured response. -/
structure Response where
  statusCode : Nat
  body : String
deriving DecidableEq

/-- Exceptions the invocation can raise. -/
inductive Err where
  | indexError
  | valueError
  | emptyFrame
  | invalidKeyId
  | client (msg : String)
deriving DecidableEq

/-- One attempted call to an external collaborator, in program order. -/
inductive Effect where
  | getObject (bucket key : String)
  | putObject (bucket key : String)
  | getBucketEncryption (bucket : String)
  | getKeyPolicy (keyId : String)
  | putBucketPolicy (bucket : String) (policy : BucketPolicyDoc)
  | startCrawler (name : String)
deriving DecidableEq

/-- The external collaborators (S3, KMS, Glue), as response oracles;
`Except.error` models a raised client exception.  `fetchGrid` merges
`get_object` with the `pd.read_excel` parse. -/
structure World where
  fetchGrid : String → String → Except Err RawGrid
  putObject : String → String → Except Err Unit
  getBucketEncryption : String → Except Err EncryptionResponse
  getKeyPolicy : String → Except Err KeyPolicyDoc
  putBucketPolicy : String → BucketPolicyDoc → Except Err Unit
  startCrawler : String → Except Err Unit

/-- Line 166: the fixed destination bucket. -/
def targetBucketName : String := "input-data-bucket-eu-west-2"

/-- Line 187: the fixed crawler name. -/
def crawlerName : String := "s3_input_crawler"

/-- Shallow embedding of `lambda_handler`: returns the response (or the
raised exception) together with the trace of attempted external calls.
Notable source facts carried over literally: the date token is parsed
before any S3 call; `file_prefix` is `file_name.split('.')[0]`; a `None`
result of `get_kms_master_key` is passed to `kms_client.get_key_policy`,
whose client-side parameter validation rejects a null `KeyId`
(`Err.invalidKeyId`) before any request is made; `start_crawler` is not
wrapped in any exception handler. -/
def lambda_handler (ev : S3Event) (w : World) : Except Err Response × List Effect :=
  let file_name := lastPart '/' ev.sourceKey
  let file_stem := firstPart '.' file_name
  let file_extension := lastPart '.' file_name
  if pyLower file_extension = "xlsx" then
    match secondPart '_' file_name with
    | none => (Except.error Err.indexError, [])
    | some date_str =>
      match strptimeYmd date_str with
      | none => (Except.error Err.valueError, [])
      | some (y, m, d) =>
        match w.fetchGrid ev.sourceBucket ev.sourceKey with
        | Except.error e => (Except.error e, [Effect.getObject ev.sourceBucket ev.sourceKey])
        | Except.ok grid =>
          let t₁ := [Effect.getObject ev.sourceBucket ev.sourceKey]
          match clean grid with
          | none => (Except.error Err.emptyFrame, t₁)
          | some _cleaned =>
            let target_key := mkTargetKey y m d file_stem
            let t₂ := t₁ ++ [Effect.putObject targetBucketName target_key]
            match w.putObject targetBucketName target_key with
            | Except.error e => (Except.error e, t₂)
            | Except.ok _ =>
              let t₃ := t₂ ++ [Effect.getBucketEncryption targetBucketName]
              match w.getBucketEncryption targetBucketName with
              | Except.error e => (Except.error e, t₃)
              | Except.ok encResp =>
                match get_kms_master_key encResp with
                | none => (Except.error Err.invalidKeyId, t₃)
                | some key_arn =>
                  let t₄ := t₃ ++ [Effect.getKeyPolicy key_arn]
                  match w.getKeyPolicy key_arn with
                  | Except.error e => (Except.error e, t₄)
                  | Except.ok keyPolicy =>
                    let arns := get_aws_account_arns_from_key_metadata keyPolicy
                    let policy := attach_bucket_policy_policy targetBucketName arns
                    let t₅ := t₄ ++ [Effect.putBucketPolicy targetBucketName policy]
                    match w.putBucketPolicy targetBucketName policy with
                    | Except.error e => (Except.error e, t₅)
                    | Except.ok _ =>
                      let t₆ := t₅ ++ [Effect.startCrawler crawlerName]
                      match w.startCrawler crawlerName with
                      | Except.error e => (Except.error e, t₆)
                      | Except.ok _ =>
                        (Except.ok
                          { statusCode := 200,
                            body := "File " ++ file_name ++ " converted and stored as " ++
                              target_key ++ " in " ++ targetBucketName }, t₆)
  else
    (Except.ok
      { statusCode := 400,
        body := "Error: " ++ file_name ++ " is not an Excel file" }, [])

/-! ### Concrete collaborators for evaluating the handler -/

/-- A small nonblank grid used as the parsed spreadsheet. -/
def demoGrid : RawGrid := [[some "h1", some "h2"], [some "a", some "b"]]

/-- A destination bucket whose default encryption is `AES256`: every call
succeeds, but the encryption is not KMS-backed. -/
def aesWorld : World :=
  { fetchGrid := fun _ _ => Except.ok demoGrid,
    putObject := fun _ _ => Except.ok (),
    getBucketEncryption := fun _ => Except.ok
      { serverSideEncryptionConfiguration := some
          [{ applyByDefault := some { sseAlgorithm := some "AES256", kmsMasterKeyID := none } }] },
    getKeyPolicy := fun _ => Except.ok { Statement := [] },
    putBucketPolicy := fun _ _ => Except.ok (),
    startCrawler := fun _ => Except.ok () }

/-- A destination bucket with a KMS default key and one qualifying
principal, whose crawler trigger fails: every step up to and including the
policy application succeeds, then `start_crawler` raises. -/
def crawlerFailWorld : World :=
  { fetchGrid := fun _ _ => Except.ok demoGrid,
    putObject := fun _ _ => Except.ok (),
    getBucketEncryption := fun _ => Except.ok
      { serverSideEncryptionConfiguration := some
          [{ applyByDefault := some { sseAlgorithm := some "aws:kms", kmsMasterKeyID := some "key-1" } }] },
    getKeyPolicy := fun _ => Except.ok
      { Statement := [{ Principal := some { AWS := some (AwsValue.str "arn:aws:iam::222:user/x") } }] },
    putBucketPolicy := fun _ _ => Except.ok (),
    startCrawler := fun _ => Except.error (Err.client "crawler down") }

/-! ## Theorems -/

/-- C1: for every bucket name and every list of account identifiers,
including the empty list, the policy built and applied by
`attach_bucket_policy` has exactly two statements: an Allow statement
whose Principal AWS list is exactly the given accounts with action
`s3:*` on the bucket ARN and the bucket ARN plus `/*`, and a Deny
statement whose NotPrincipal AWS list is exactly the given accounts with
action `s3:GetObject` on the same two resources. -/
theorem attach_bucket_policy_two_statements (bucket_name : String) (account_arns : List String) :
    ∃ allowStmt denyStmt,
      (attach_bucket_policy_policy bucket_name account_arns).statement = [allowStmt, denyStmt] ∧
      allowStmt.effect = "Allow" ∧
      allowStmt.principalAWS = some account_arns ∧
      allowStmt.action = "s3:*" ∧
      allowStmt.resource = StrOrList.list
        ["arn:aws:s3:::" ++ bucket_name, "arn:aws:s3:::" ++ bucket_name ++ "/*"] ∧
      denyStmt.effect = "Deny" ∧
      denyStmt.notPrincipalAWS = some account_arns ∧
      denyStmt.action = "s3:GetObject" ∧
      denyStmt.resource = StrOrList.list
        ["arn:aws:s3:::" ++ bucket_name, "arn:aws:s3:::" ++ bucket_name ++ "/*"] :=
  ⟨_, _, rfl, rfl, rfl, rfl, rfl, rfl, rfl, rfl, rfl⟩

/-- C4 counterexample: on `report_20240315_v1.xlsx` the code's file
prefix is `file_name.split('.')[0] = "report_20240315_v1"`, not
`"report"`, so the derived destination key is
`year=2024/month=03/day=15/report_20240315_v1.csv` and not the
`.../report.csv` the claim asserts. -/
theorem report_example_key_differs :
    deriveTargetKey "report_20240315_v1.xlsx" =
      some "year=2024/month=03/day=15/report_20240315_v1.csv" ∧
    firstPart '.' "report_20240315_v1.xlsx" = "report_20240315_v1" ∧
    deriveTargetKey "report_20240315_v1.xlsx" ≠
      some "year=2024/month=03/day=15/report.csv" := by
  refine ⟨rfl, rfl, ?_⟩
  decide

/-- C4 amended: for `report_20240315_v1.xlsx` partition derivation yields
year 2024, month 3, day 15 and file prefix `report_20240315_v1`, and the
derived destination key is
`year=2024/month=03/day=15/report_20240315_v1.csv`. -/
theorem report_example_key :
    derivePartition "report_20240315_v1.xlsx" = some (2024, 3, 15) ∧
    firstPart '.' "report_20240315_v1.xlsx" = "report_20240315_v1" ∧
    deriveTargetKey "report_20240315_v1.xlsx" =
      some "year=2024/month=03/day=15/report_20240315_v1.csv" :=
  ⟨rfl, rfl, rfl⟩

/-- C8 counterexample: `a_202435_b.xlsx` has the accepted extension and a
second underscore segment `202435` of six digits — not an 8-digit
`YYYYMMDD` token — yet partition derivation succeeds, yielding
2024-03-05 (CPython's `%m`/`%d` patterns also accept single digits). -/
theorem date_token_six_digits_parses :
    pyLower (lastPart '.' "a_202435_b.xlsx") = "xlsx" ∧
    secondPart '_' "a_202435_b.xlsx" = some "202435" ∧
    String.length "202435" = 6 ∧
    derivePartition "a_202435_b.xlsx" = some (2024, 3, 5) :=
  ⟨rfl, rfl, rfl, rfl⟩

/-- C8 amended: partition derivation fails exactly when the second
underscore-delimited segment is absent or `strptime` with format
`%Y%m%d` rejects it (4-digit year, then 1-2 digit month and day matched
greedily, full consumption, valid calendar date); in particular
`badname.xlsx` fails (its second segment is absent).  Being an 8-digit
token is not required: see the counterexample. -/
theorem derivePartition_fails_iff :
    (∀ fn, derivePartition fn = none ↔
      secondPart '_' fn = none ∨
        ∃ ds, secondPart '_' fn = some ds ∧ strptimeYmd ds = none) ∧
    derivePartition "badname.xlsx" = none := by
  constructor
  · intro fn
    unfold derivePartition
    cases h : secondPart '_' fn with
    | none => simp [h]
    | some ds => simp [h]
  · rfl

/-- C10 counterexample: on a grid whose rows are all blank, the cleaning
step does not return a header-only result — `iloc[0]` on the emptied
frame raises `IndexError`, modelled by `clean` returning `none`. -/
theorem clean_all_blank_grid_fails :
    clean [[none, none], [none, none]] = none := by rfl

/-- C10 amended: for every raw grid in which every row is entirely empty,
zero rows remain after row filtering and the cleaning step fails (the
header extraction `iloc[0]` raises on the empty frame) instead of
returning a header-only result. -/
theorem clean_all_blank_none (g : RawGrid) (h : ∀ r ∈ g, isEmptyRow r = true) :
    clean g = none := by
  have hg : dropEmptyRows g = [] := by
    simp only [dropEmptyRows, List.filter_eq_nil_iff]
    intro r hr
    simp [h r hr]
  simp [clean, hg]

/-- Witness for the amended C10 theorem at a concrete all-blank grid. -/
theorem clean_all_blank_none_witness :
    (∀ r ∈ ([[none, none], [none]] : RawGrid), isEmptyRow r = true) ∧
    clean [[none, none], [none]] = none :=
  ⟨by decide, clean_all_blank_none [[none, none], [none]] (by decide)⟩

/-- C2: when the destination bucket's default encryption is not
KMS-backed, `get_kms_master_key` returns `None`, but `lambda_handler`
does not skip the policy steps: it passes the null key straight to
`kms_client.get_key_policy`, whose parameter validation raises, so the
invocation fails.  At this input the handler raises after the encryption
lookup — the trace shows no key-policy fetch and no policy application —
and no success response is returned, contradicting the documented
intention that a missing key is skipped. -/
theorem no_kms_key_invocation_fails :
    lambda_handler ⟨"src", "a_20240101_b.xlsx"⟩ aesWorld =
      (Except.error Err.invalidKeyId,
       [Effect.getObject "src" "a_20240101_b.xlsx",
        Effect.putObject targetBucketName "year=2024/month=01/day=01/a_20240101_b.csv",
        Effect.getBucketEncryption targetBucketName]) := by rfl

/-- C9 counterexample: with a world in which fetch, cleaning, upload,
key resolution and policy application all succeed and only the crawler
trigger raises, the handler propagates the crawler exception — the trace
shows the upload and the policy application completed — and does not
return the statusCode-200 response the claim asserts. -/
theorem crawler_failure_errors :
    lambda_handler ⟨"src", "a_20240101_b.xlsx"⟩ crawlerFailWorld =
      (Except.error (Err.client "crawler down"),
       [Effect.getObject "src" "a_20240101_b.xlsx",
        Effect.putObject targetBucketName "year=2024/month=01/day=01/a_20240101_b.csv",
        Effect.getBucketEncryption targetBucketName,
        Effect.getKeyPolicy "key-1",
        Effect.putBucketPolicy targetBucketName
          (attach_bucket_policy_policy targetBucketName ["arn:aws:iam::222:user/x"]),
        Effect.startCrawler crawlerName]) := by rfl

/-- C6: for every trigger event whose uploaded object key has an
extension other than `xlsx` under case-insensitive comparison, the
handler returns statusCode 400 with a body stating the file is not an
Excel file, raises nothing, and performs no external call at all (the
effect trace is empty: no storage read or write, no key-management,
policy or crawler call). -/
theorem non_xlsx_rejected (ev : S3Event) (w : World)
    (h : pyLower (lastPart '.' (lastPart '/' ev.sourceKey)) ≠ "xlsx") :
    lambda_handler ev w =
      (Except.ok
        { statusCode := 400,
          body := "Error: " ++ lastPart '/' ev.sourceKey ++ " is not an Excel file" },
       []) := by
  simp only [lambda_handler]
  rw [if_neg h]

/-- Witness for C6 at the spec's `notes.txt` example. -/
theorem non_xlsx_rejected_witness :
    pyLower (lastPart '.' (lastPart '/' "notes.txt")) ≠ "xlsx" ∧
    lambda_handler ⟨"bkt", "notes.txt"⟩ aesWorld =
      (Except.ok
        { statusCode := 400, body := "Error: notes.txt is not an Excel file" }, []) :=
  ⟨by decide, non_xlsx_rejected ⟨"bkt", "notes.txt"⟩ aesWorld (by decide)⟩

/-- C9 amended: a failure of the crawler trigger is not survived — the
handler has no exception handling around `start_crawler`, so when it
fails the invocation fails; whenever the handler does return a response
while the crawler trigger would fail, that response is the 400 rejection,
never the statusCode-200 success naming the destination key. -/
theorem crawler_failure_no_success (ev : S3Event) (w : World) (e : Err)
    (hc : w.startCrawler crawlerName = Except.error e)
    (r : Response) (tr : List Effect)
    (h : lambda_handler ev w = (Except.ok r, tr)) :
    r.statusCode = 400 := by
  simp only [lambda_handler] at h
  split at h
  · repeat' split at h
    all_goals simp_all
  · simp only [Prod.mk.injEq, Except.ok.injEq] at h
    rw [← h.1]

/-- Witness for the amended C9 theorem: the crawler-failing world with a
rejected (non-Excel) upload, the only way it can still return. -/
theorem crawler_failure_no_success_witness :
    crawlerFailWorld.startCrawler crawlerName = Except.error (Err.client "crawler down") ∧
    ({ statusCode := 400, body := "Error: notes.txt is not an Excel file" } : Response).statusCode = 400 :=
  ⟨rfl,
    crawler_failure_no_success ⟨"bkt2", "notes.txt"⟩ crawlerFailWorld (Err.client "crawler down")
      rfl { statusCode := 400, body := "Error: notes.txt is not an Excel file" } [] rfl⟩

/-- Membership after one guarded set insertion. -/
theorem mem_addArn (acc : List String) (arn a : String) :
    a ∈ addArn acc arn ↔ a ∈ acc ∨ (a = arn ∧ pyEndsWith arn ":root" = false) := by
  by_cases hr : pyEndsWith arn ":root" = true
  · simp [addArn, hr]
  · rw [Bool.not_eq_true] at hr
    simp only [addArn, hr, Bool.false_eq_true, if_false, List.mem_insert_iff, and_true]
    tauto

/-- Membership after folding the guarded insertion over a list of ARNs. -/
theorem mem_foldl_addArn (l acc : List String) (a : String) :
    a ∈ l.foldl addArn acc ↔ a ∈ acc ∨ (a ∈ l ∧ pyEndsWith a ":root" = false) := by
  induction l generalizing acc with
  | nil => simp
  | cons x xs ih =>
    simp only [List.foldl_cons, ih, mem_addArn, List.mem_cons]
    constructor
    · rintro ((h | ⟨rfl, h⟩) | ⟨h₁, h₂⟩)
      · exact Or.inl h
      · exact Or.inr ⟨Or.inl rfl, h⟩
      · exact Or.inr ⟨Or.inr h₁, h₂⟩
    · rintro (h | ⟨rfl | h₁, h₂⟩)
      · exact Or.inl (Or.inl h)
      · exact Or.inl (Or.inr ⟨rfl, h₂⟩)
      · exact Or.inr ⟨h₁, h₂⟩

/-- A statement without a `Principal` qualifies nothing. -/
theorem qualifies_none (st : KPStatement) (a : String) (hp : st.Principal = none) :
    ¬ qualifies st a := by
  rintro ⟨-, pr', hpr, -⟩
  rw [hp] at hpr
  cases hpr

/-- Qualification unfolded under a known `Principal`. -/
theorem qualifies_iff (st : KPStatement) (pr : KPPrincipal) (a : String)
    (hp : st.Principal = some pr) :
    qualifies st a ↔ pyEndsWith a ":root" = false ∧
      (pr.AWS = some (AwsValue.str a) ∨ ∃ l, pr.AWS = some (AwsValue.list l) ∧ a ∈ l) := by
  unfold qualifies
  rw [hp]
  constructor
  · rintro ⟨h, pr', hpr, hc⟩
    cases Option.some.inj hpr
    exact ⟨h, hc⟩
  · rintro ⟨h, hc⟩
    exact ⟨h, pr, rfl, hc⟩

/-- Membership after processing a single key-policy statement. -/
theorem mem_stmtStep (st : KPStatement) (acc : List String) (a : String) :
    a ∈ stmtStep acc st ↔ a ∈ acc ∨ qualifies st a := by
  cases hp : st.Principal with
  | none =>
    have hs : stmtStep acc st = acc := by simp [stmtStep, hp]
    rw [hs]
    exact (or_iff_left (qualifies_none st a hp)).symm
  | some pr =>
    have hq := qualifies_iff st pr a hp
    cases ha : pr.AWS with
    | none =>
      have hs : stmtStep acc st = acc := by simp [stmtStep, hp, ha]
      rw [hs, hq, ha]
      simp
    | some v =>
      cases v with
      | str s =>
        have hs : stmtStep acc st = addArn acc s := by simp [stmtStep, hp, ha]
        rw [hs, mem_addArn, hq, ha]
        constructor
        · rintro (h | ⟨rfl, h⟩)
          · exact Or.inl h
          · exact Or.inr ⟨h, Or.inl rfl⟩
        · rintro (h | ⟨h, hc⟩)
          · exact Or.inl h
          · rcases hc with hE | ⟨l', hl', -⟩
            · have hsa := AwsValue.str.inj (Option.some.inj hE)
              subst hsa
              exact Or.inr ⟨rfl, h⟩
            · simp at hl'
      | list l =>
        have hs : stmtStep acc st = l.foldl addArn acc := by simp [stmtStep, hp, ha]
        rw [hs, mem_foldl_addArn, hq, ha]
        constructor
        · rintro (h | ⟨h₁, h₂⟩)
          · exact Or.inl h
          · exact Or.inr ⟨h₂, Or.inr ⟨l, rfl, h₁⟩⟩
        · rintro (h | ⟨h₂, hc⟩)
          · exact Or.inl h
          · rcases hc with hE | ⟨l', hl', hm⟩
            · simp at hE
            · cases AwsValue.list.inj (Option.some.inj hl')
              exact Or.inr ⟨hm, h₂⟩
      | other =>
        have hs : stmtStep acc st = acc := by simp [stmtStep, hp, ha]
        rw [hs, hq, ha]
        simp

/-- Membership after folding the statement processing over a policy. -/
theorem mem_foldl_stmtStep (sts : List KPStatement) (acc : List String) (a : String) :
    a ∈ sts.foldl stmtStep acc ↔ a ∈ acc ∨ ∃ st ∈ sts, qualifies st a := by
  induction sts generalizing acc with
  | nil => simp
  | cons x xs ih =>
    simp only [List.foldl_cons, ih, mem_stmtStep, List.mem_cons]
    constructor
    · rintro ((h | h) | ⟨st, hst, hq⟩)
      · exact Or.inl h
      · exact Or.inr ⟨x, Or.inl rfl, h⟩
      · exact Or.inr ⟨st, Or.inr hst, hq⟩
    · rintro (h | ⟨st, rfl | hst, hq⟩)
      · exact Or.inl (Or.inl h)
      · exact Or.inl (Or.inr hq)
      · exact Or.inr ⟨st, hst, hq⟩

/-- The guarded insertion keeps the accumulator duplicate-free. -/
theorem nodup_addArn (acc : List String) (arn : String) (h : acc.Nodup) :
    (addArn acc arn).Nodup := by
  unfold addArn
  split
  · exact h
  · exact h.insert

/-- Folding the guarded insertion keeps the accumulator duplicate-free. -/
theorem nodup_foldl_addArn (l acc : List String) (h : acc.Nodup) :
    (l.foldl addArn acc).Nodup := by
  induction l generalizing acc with
  | nil => exact h
  | cons x xs ih => exact ih _ (nodup_addArn _ _ h)

/-- Statement processing keeps the accumulator duplicate-free. -/
theorem nodup_stmtStep (st : KPStatement) (acc : List String) (h : acc.Nodup) :
    (stmtStep acc st).Nodup := by
  cases hp : st.Principal with
  | none => simpa [stmtStep, hp] using h
  | some pr =>
    cases ha : pr.AWS with
    | none => simpa [stmtStep, hp, ha] using h
    | some v =>
      cases v with
      | str s =>
        have hs : stmtStep acc st = addArn acc s := by simp [stmtStep, hp, ha]
        rw [hs]
        exact nodup_addArn _ _ h
      | list l =>
        have hs : stmtStep acc st = l.foldl addArn acc := by simp [stmtStep, hp, ha]
        rw [hs]
        exact nodup_foldl_addArn _ _ h
      | other => simpa [stmtStep, hp, ha] using h

/-- Folding statement processing keeps the accumulator duplicate-free. -/
theorem nodup_foldl_stmtStep (sts : List KPStatement) (acc : List String) (h : acc.Nodup) :
    (sts.foldl stmtStep acc).Nodup := by
  induction sts generalizing acc with
  | nil => exact h
  | cons x xs ih => exact ih _ (nodup_stmtStep _ _ h)

/-- C5: for every key policy document, principal extraction returns a
duplicate-free collection whose members are exactly the identifiers that
occur in some statement's Principal `AWS` field — as the single string or
as an element of a list — and do not end with `:root`; statements lacking
a Principal, lacking an `AWS` entry, or whose `AWS` entry is neither a
string nor a list contribute nothing and cause no error, and the result
is empty when no identifier qualifies. -/
theorem extract_principals_spec (doc : KeyPolicyDoc) :
    (get_aws_account_arns_from_key_metadata doc).Nodup ∧
    (∀ a, a ∈ get_aws_account_arns_from_key_metadata doc ↔
      ∃ st ∈ doc.Statement, qualifies st a) ∧
    ((∀ a, ¬ ∃ st ∈ doc.Statement, qualifies st a) →
      get_aws_account_arns_from_key_metadata doc = []) := by
  refine ⟨nodup_foldl_stmtStep _ _ List.nodup_nil, fun a => ?_, fun hnone => ?_⟩
  · unfold get_aws_account_arns_from_key_metadata
    simpa using mem_foldl_stmtStep doc.Statement [] a
  · apply List.eq_nil_iff_forall_not_mem.mpr
    intro a ha
    rcases (mem_foldl_stmtStep doc.Statement [] a).mp ha with h | h
    · simp at h
    · exact hnone a h

/-- A valued cell of a cell option is not blank. -/
theorem isNone_eq_false_of_isSome (o : Cell) (h : o.isSome = true) : o.isNone = false := by
  cases o with
  | none => cases h
  | some v => rfl

/-- A non-blank row has a valued cell at some in-range index. -/
theorem exists_some_of_not_emptyRow (r : List Cell) (h : isEmptyRow r = false) :
    ∃ j, j < r.length ∧ (r.getD j none).isSome = true := by
  rw [isEmptyRow, List.all_eq_false] at h
  obtain ⟨c, hc, hcf⟩ := h
  obtain ⟨j, hj, hje⟩ := List.mem_iff_getElem.mp hc
  refine ⟨j, hj, ?_⟩
  rw [List.getD_eq_getElem _ _ hj, hje]
  cases c with
  | none => exact absurd rfl hcf
  | some v => rfl

/-- Characterization of a successful cleaning pass: the surviving rows,
restricted to the kept columns, are exactly the header followed by the
data rows. -/
theorem clean_eq_some (g : RawGrid) (hd : List Cell) (rows : RawGrid) :
    clean g = some (hd, rows) ↔
      (dropEmptyRows g).map (selectCols (keptCols (dropEmptyRows g) (gridWidth g))) =
        hd :: rows := by
  simp only [clean]
  cases hm : (dropEmptyRows g).map (selectCols (keptCols (dropEmptyRows g) (gridWidth g))) with
  | nil => simp
  | cons a t => simp [eq_comm, and_comm]

/-- C7: for every rectangular raw grid, a successful cleaning pass yields
a table — header plus data rows — containing no all-blank row and no
all-blank column, in which every data row has exactly as many columns as
the header row. -/
theorem clean_no_blank_rows_cols (g : RawGrid) (n : Nat) (hd : List Cell) (rows : RawGrid)
    (hrect : ∀ r ∈ g, r.length = n)
    (h : clean g = some (hd, rows)) :
    (∀ r ∈ hd :: rows, isEmptyRow r = false) ∧
    (∀ j, j < hd.length → ∃ r ∈ hd :: rows, (r.getD j none).isSome = true) ∧
    (∀ r ∈ rows, r.length = hd.length) := by
  have hm := (clean_eq_some g hd rows).mp h
  have hmem : ∀ r', r' ∈ hd :: rows ↔
      ∃ r ∈ dropEmptyRows g,
        selectCols (keptCols (dropEmptyRows g) (gridWidth g)) r = r' := by
    intro r'
    rw [← hm, List.mem_map]
  have hgne : g ≠ [] := by
    rintro rfl
    simp [dropEmptyRows] at hm
  have hwidth : gridWidth g = n := by
    cases g with
    | nil => exact absurd rfl hgne
    | cons r₀ rest => exact hrect r₀ (by simp)
  have hlen : ∀ r' ∈ hd :: rows,
      r'.length = (keptCols (dropEmptyRows g) (gridWidth g)).length := by
    intro r' hr'
    obtain ⟨r, -, rfl⟩ := (hmem r').mp hr'
    simp [selectCols]
  refine ⟨?_, ?_, ?_⟩
  · intro r' hr'
    obtain ⟨r, hrg₁, rfl⟩ := (hmem r').mp hr'
    have hrfil := List.mem_filter.mp hrg₁
    have hre : isEmptyRow r = false := by simpa using hrfil.2
    obtain ⟨j, hj, hjs⟩ := exists_some_of_not_emptyRow r hre
    have hjn : j < n := hrect r hrfil.1 ▸ hj
    have hjcols : j ∈ keptCols (dropEmptyRows g) (gridWidth g) := by
      rw [keptCols, List.mem_filter]
      refine ⟨List.mem_range.mpr (hwidth ▸ hjn), ?_⟩
      rw [colHasValue, List.any_eq_true]
      exact ⟨r, hrg₁, hjs⟩
    have hcell : r.getD j none ∈ selectCols (keptCols (dropEmptyRows g) (gridWidth g)) r :=
      List.mem_map.mpr ⟨j, hjcols, rfl⟩
    rw [isEmptyRow, List.all_eq_false]
    exact ⟨r.getD j none, hcell, by
      rw [isNone_eq_false_of_isSome _ hjs]
      exact Bool.false_ne_true⟩
  · intro j hj
    have hjc : j < (keptCols (dropEmptyRows g) (gridWidth g)).length := by
      rw [← hlen hd (by simp)]
      exact hj
    have hkept : ∀ x ∈ keptCols (dropEmptyRows g) (gridWidth g),
        colHasValue (dropEmptyRows g) x = true := by
      intro x hx
      rw [keptCols] at hx
      exact (List.mem_filter.mp hx).2
    have hcv := hkept _ (List.get_mem (keptCols (dropEmptyRows g) (gridWidth g)) j hjc)
    rw [colHasValue, List.any_eq_true] at hcv
    obtain ⟨r, hrg₁, hrs⟩ := hcv
    refine ⟨selectCols (keptCols (dropEmptyRows g) (gridWidth g)) r,
      (hmem _).mpr ⟨r, hrg₁, rfl⟩, ?_⟩
    have hsel : (selectCols (keptCols (dropEmptyRows g) (gridWidth g)) r).getD j none =
        r.getD ((keptCols (dropEmptyRows g) (gridWidth g)).get ⟨j, hjc⟩) none := by
      rw [selectCols, List.getD_eq_getElem _ _ (by simpa using hjc), List.getElem_map,
        List.get_eq_getElem]
    rw [hsel]
    exact hrs
  · intro r hr
    rw [hlen r (by simp [hr]), hlen hd (by simp)]

/-- A successful `strptime` parse passed the calendar validity check. -/
theorem validDate_of_strptime (s : String) (y m d : Nat)
    (h : strptimeYmd s = some (y, m, d)) : validDate y m d = true := by
  unfold strptimeYmd at h
  repeat' split at h
  all_goals try exact Option.noConfusion h
  rename_i hv
  have h' := Option.some.inj h
  rw [Prod.ext_iff] at h'
  obtain ⟨h1, h2⟩ := h'
  rw [Prod.ext_iff] at h2
  obtain ⟨h3, h4⟩ := h2
  subst h1
  subst h3
  subst h4
  exact hv

/-- Bounds on the month and day of any valid calendar date. -/
theorem month_day_bounds (y m d : Nat) (h : validDate y m d = true) :
    1 ≤ m ∧ m ≤ 12 ∧ 1 ≤ d ∧ d ≤ 31 := by
  unfold validDate at h
  simp only [Bool.and_eq_true, decide_eq_true_eq] at h
  obtain ⟨⟨⟨⟨-, h2⟩, h3⟩, h4⟩, h5⟩ := h
  have hdm : daysInMonth y m ≤ 31 := by
    unfold daysInMonth
    split
    · split <;> omega
    · split <;> omega
  exact ⟨h2, h3, h4, by omega⟩

/-- Zero-padding to width two always yields two characters below 100. -/
theorem pad2_length (n : Nat) (h : n < 100) : (pad2 n).length = 2 := by
  have hall : ∀ k, k < 100 → (pad2 k).length = 2 := by decide
  exact hall n h

/-- C3: for every accepted upload, the destination object key has the
form `year=<Y>/month=<MM>/day=<DD>/<stem>.csv` where the month and day
components are exactly two zero-padded digits, the year is the full
parsed year, and the stem is the first token of the uploaded filename
split on `.`. -/
theorem target_key_format (fn k : String) (h : deriveTargetKey fn = some k) :
    ∃ y m d, derivePartition fn = some (y, m, d) ∧
      k = "year=" ++ toString y ++ "/month=" ++ pad2 m ++ "/day=" ++ pad2 d ++ "/" ++
        firstPart '.' fn ++ ".csv" ∧
      (pad2 m).length = 2 ∧ (pad2 d).length = 2 := by
  unfold deriveTargetKey at h
  cases hp : derivePartition fn with
  | none => rw [hp] at h; cases h
  | some p =>
    rw [hp] at h
    obtain ⟨y, m, d⟩ := p
    have hb : 1 ≤ m ∧ m ≤ 12 ∧ 1 ≤ d ∧ d ≤ 31 := by
      unfold derivePartition at hp
      cases hs : secondPart '_' fn with
      | none => rw [hs] at hp; cases hp
      | some ds =>
        rw [hs] at hp
        exact month_day_bounds y m d (validDate_of_strptime ds y m d hp)
    have hk := Option.some.inj h
    refine ⟨y, m, d, rfl, ?_, ?_, ?_⟩
    · rw [← hk]
      rfl
    · exact pad2_length m (by omega)
    · exact pad2_length d (by omega)

/-- Witness for C3 at the dated report filename. -/
theorem target_key_format_witness :
    deriveTargetKey "report_20240315_v1.xlsx" =
      some "year=2024/month=03/day=15/report_20240315_v1.csv" ∧
    (∃ y m d, derivePartition "report_20240315_v1.xlsx" = some (y, m, d) ∧
      "year=2024/month=03/day=15/report_20240315_v1.csv" =
        "year=" ++ toString y ++ "/month=" ++ pad2 m ++ "/day=" ++ pad2 d ++ "/" ++
          firstPart '.' "report_20240315_v1.xlsx" ++ ".csv" ∧
      (pad2 m).length = 2 ∧ (pad2 d).length = 2) :=
  ⟨rfl, target_key_format "report_20240315_v1.xlsx"
    "year=2024/month=03/day=15/report_20240315_v1.csv" rfl⟩

/-- Witness for C7 at a concrete grid with a blank row and a blank column. -/
theorem clean_no_blank_rows_cols_witness :
    (∀ r ∈ ([[some "a", none], [none, none]] : RawGrid), r.length = 2) ∧
    clean [[some "a", none], [none, none]] = some ([some "a"], []) ∧
    ((∀ r ∈ ([some "a"] : List Cell) :: ([] : RawGrid), isEmptyRow r = false) ∧
     (∀ j, j < ([some "a"] : List Cell).length →
        ∃ r ∈ ([some "a"] : List Cell) :: ([] : RawGrid), (r.getD j none).isSome = true) ∧
     (∀ r ∈ ([] : RawGrid), r.length = ([some "a"] : List Cell).length)) :=
  ⟨by decide, by decide,
    clean_no_blank_rows_cols [[some "a", none], [none, none]] 2 [some "a"] []
      (by decide) (by decide)⟩

end BucketPolicy
